import Mathlib

/-!
Verification of the grades-dsc gradebook pipeline: a shallow embedding of
`src/gradebook.py` and `src/third_parties.py` (classes `Gradebook`, `Slido`,
`Zybook`, `Gradescope`) together with theorems settling the specification
claims. Numeric spreadsheet cells are modelled as `Option ℚ` (a missing cell
is `none`); pandas float division, whose quotient by zero is `inf`/`nan`
rather than an error, is modelled by the inductive `PercVal`.
-/

namespace GradesDSC

/-- Round half to even, the rounding used by `pandas.Series.round` (numpy
banker's rounding), applied in `Zybook.convert_raw` via `.round().astype(int)`. -/
def roundHalfEven (q : ℚ) : ℤ :=
  let f : ℤ := ⌊q⌋
  let r : ℚ := q - f
  if r < 1/2 then f
  else if 1/2 < r then f + 1
  else if f % 2 = 0 then f else f + 1

/-- Result of a pandas float computation: a finite rational, an infinity, or
nan. `x / 0` is `inf`, `-inf` or `nan` in pandas, never an exception. -/
inductive PercVal where
  | fin (q : ℚ)
  | posInf
  | negInf
  | nan
  deriving DecidableEq, Repr

/-- Pandas float division `a / b`: finite quotient when `b ≠ 0`, otherwise
`nan` for `0/0` and a signed infinity for `a/0` with `a ≠ 0`. -/
def floatDiv (a b : ℚ) : PercVal :=
  if b = 0 then
    if a = 0 then .nan else if 0 < a then .posInf else .negInf
  else .fin (a / b)

/-- Multiplication of a pandas float by the literal 100 (used for
`total_score / self.total_score * 100`). -/
def percScale (p : PercVal) : PercVal :=
  match p with
  | .fin q => .fin (q * 100)
  | x => x

/-- Pandas comparison `p >= t` on a float value: comparisons with `nan` are
false, `inf` dominates every threshold, `-inf` none. -/
def pge (p : PercVal) (t : ℚ) : Bool :=
  match p with
  | .fin q => decide (t ≤ q)
  | .posInf => true
  | .negInf => false
  | .nan => false

/-- The bucketizing lambda of `Zybook.compute_grade` on a finite percentage:
5 if score >= 93, else 4 if >= 80, else 3 if >= 60, else 2 if >= 40,
else 1 if >= 20, else 0. -/
def bucketizeQ (score : ℚ) : ℕ :=
  if 93 ≤ score then 5
  else if 80 ≤ score then 4
  else if 60 ≤ score then 3
  else if 40 ≤ score then 2
  else if 20 ≤ score then 1
  else 0

/-- The same bucketizing lambda applied to a pandas float value (the
percentage column may hold `nan` or `inf` after a zero division). -/
def bucketizePV (p : PercVal) : ℕ :=
  if pge p 93 then 5
  else if pge p 80 then 4
  else if pge p 60 then 3
  else if pge p 40 then 2
  else if pge p 20 then 1
  else 0

/-! ### Slido (`Slido.convert_raw` / `Slido.compute_grade`) -/

/-- `Slido.compute_grade`: the row mean over the poll-question columns of the
`isna` indicator, compared against `1 - min_poll`, times 1. The row mean of
an empty column set is pandas `nan`, and a comparison with `nan` is false. -/
def slidoGrade (min_poll : ℚ) (answers : List (Option ℚ)) : ℕ :=
  if answers.length = 0 then 0
  else if ((answers.countP (fun a => a.isNone) : ℚ) / answers.length ≤ 1 - min_poll)
    then 1 else 0

/-! ### Zybook column selection (`Zybook.convert_raw`) -/

/-- Python `int` on a nonempty digit string (the captured weight group). -/
def digitsToNat (ds : List Char) : ℕ :=
  ds.foldl (fun n c => 10 * n + (c.toNat - 48)) 0

/-- Match of one pattern character against one subject character. The regex
in `Zybook.convert_raw` interpolates the config strings verbatim, so a dot in
a section name (such as the documented keys 1.2, 1.3) is the regex wildcard;
every other character occurring in section or activity names is literal. -/
def charMatch (p c : Char) : Bool := p = '.' || p = c

/-- Consume the pattern at the head of the subject, returning the remaining
subject characters on success. -/
def consumePat : List Char → List Char → Option (List Char)
  | [], s => some s
  | _ :: _, [] => none
  | p :: ps, c :: cs => if charMatch p c then consumePat ps cs else none

/-- Attempt one alternative `((?:<sec> - <act>) \(([0-9]+)\))` of the regex of
`Zybook.convert_raw` at the head of `s`: the section/activity text, a space,
an opening paren, at least one digit, a closing paren. On success, return the
text of capture group 1 and the parsed weight (group 2, `int(score)`). -/
def matchPairHere (sec act : String) (s : List Char) : Option (String × ℕ) :=
  let pat := (sec ++ " - " ++ act ++ " (").data
  match consumePat pat s with
  | none => none
  | some rest =>
      let ds := rest.takeWhile Char.isDigit
      let rest2 := rest.dropWhile Char.isDigit
      if ds.isEmpty then none
      else
        match rest2 with
        | ')' :: _ => some (⟨s.take pat.length ++ ds ++ [')']⟩, digitsToNat ds)
        | _ => none

/-- The (section, activity) sub-patterns in the order the alternation of
`Zybook.convert_raw` lists them: config entries in order, activities in the
listed order within each section. -/
def configPairs (config : List (String × List String)) : List (String × String) :=
  config.flatMap (fun sa => sa.2.map (fun act => (sa.1, act)))

/-- The alternation tried at one position: alternatives in order, first
success wins (Python regex alternation semantics). -/
def matchHere (pairs : List (String × String)) (s : List Char) : Option (String × ℕ) :=
  pairs.findSome? (fun sa => matchPairHere sa.1 sa.2 s)

/-- The leftmost match of the alternation inside a column label, the first
element of `re.findall(pat, col)`: positions scanned left to right. -/
def scanMatch (pairs : List (String × String)) : List Char → Option (String × ℕ)
  | [] => none
  | c :: cs =>
      match matchHere pairs (c :: cs) with
      | some r => some r
      | none => scanMatch pairs cs

/-- The `col_info` list of `Zybook.convert_raw`: the leftmost rubric
sub-pattern match of each column label in header order, unmatched columns
dropped. Entries are (matched text, parsed weight). -/
def col_info (config : List (String × List String)) (columns : List String) :
    List (String × ℕ) :=
  columns.filterMap (fun col => scanMatch (configPairs config) col.data)

/-- The `self.total_score` attribute set by `Zybook.convert_raw`: the sum of
the parsed weights over the matched columns. -/
def total_score (config : List (String × List String)) (columns : List String) : ℕ :=
  ((col_info config columns).map Prod.snd).sum

/-- A raw Zybook csv: the header labels, and one row per student holding the
Primary email cell and the cell of every column in header order (`none` is a
blank cell). -/
structure ZyCSV where
  columns : List String
  rows : List (String × List (Option ℚ))

/-- Column selection `df[c]` inside one row: the cell under the first column
whose label equals `c`, or `none` when no column has that label (a Python
`KeyError`). -/
def lookupCol (columns : List String) (vals : List (Option ℚ)) (c : String) :
    Option (Option ℚ) :=
  match columns.findIdx? (fun col => col == c) with
  | some i => vals.get? i
  | none => none

/-- One matched column's cell for one row, processed as
`(df[col].fillna(0) * int(cred_str) / 100).round().astype(int)`: a blank
cell counts as zero and the weighted value is rounded half-to-even, per
column. Fails (`KeyError`) when the matched text is not a column label. -/
def contribOf (columns : List String) (vals : List (Option ℚ)) (cw : String × ℕ) :
    Option ℤ :=
  (lookupCol columns vals cw.1).map (fun v => roundHalfEven ((v.getD 0) * cw.2 / 100))

/-- Map in the Option monad: all cells convert or the whole selection fails. -/
def optMapM {α β : Type} (f : α → Option β) : List α → Option (List β)
  | [] => some []
  | x :: xs =>
      match f x, optMapM f xs with
      | some y, some ys => some (y :: ys)
      | _, _ => none

/-- The processed frame of `Zybook.convert_raw`: the matched column info and,
per student, the email and the per-column integer contributions (over the
matched columns only, so an empty contribution list when nothing matched).
Assigning the non-empty email Series to `pd.DataFrame({...})` adopts the
Series' index even when the dict is empty (`DataFrame._ensure_valid_index`),
so the frame always has one row per csv row. -/
def zyConvertRaw (config : List (String × List String)) (csv : ZyCSV) :
    Option (List (String × ℕ) × List (String × List ℤ)) :=
  (optMapM (fun r =>
      (optMapM (contribOf csv.columns r.2) (col_info config csv.columns)).map
        (fun ss => (r.1, ss))) csv.rows).map
    (fun rs => (col_info config csv.columns, rs))

/-- One output row of `Zybook.compute_grade`: email, the summed row
`total_score`, the `percentage` float, and the bucketed grade. -/
structure ZyRecord where
  typed_email : String
  row_total : ℤ
  percentage : PercVal
  grade : ℕ
  deriving DecidableEq, Repr

/-- `Zybook.compute_grade` after `convert_raw`: per row, sum the per-column
contributions, divide by `self.total_score` under pandas float semantics,
scale by 100, and bucketize. -/
def zyProcess (config : List (String × List String)) (csv : ZyCSV) :
    Option (List ZyRecord) :=
  (zyConvertRaw config csv).map (fun gb =>
    gb.2.map (fun r =>
      ⟨r.1, r.2.sum,
        percScale (floatDiv (r.2.sum : ℚ) ((gb.1.map Prod.snd).sum : ℕ)),
        bucketizePV (percScale (floatDiv (r.2.sum : ℚ) ((gb.1.map Prod.snd).sum : ℕ)))⟩))

/-- The rubric and header set of the worked example used below: two declared
activities, both matched. -/
def zyCfg1 : List (String × List String) := [("1.1", ["Participation", "Challenge"])]

/-- Header labels of the worked example. -/
def zyCols1 : List String := ["1.1 - Participation (5)", "1.1 - Challenge (5)"]

/-- A rubric whose only declared column carries weight zero in the header. -/
def zyCfg0 : List (String × List String) := [("1.1", ["Participation"])]

/-- A sheet whose single matched column has weight `(0)`, so the batch's
total possible score is zero. -/
def zyCsv0 : ZyCSV := ⟨["1.1 - Participation (0)"], [("a@ucsd.edu", [some 50])]⟩

/-- A two-student sheet none of whose columns matches the rubric: the
batch's total possible score is zero because nothing matched. -/
def zyCsvNoMatch : ZyCSV :=
  ⟨["Total xp"], [("a@ucsd.edu", [some 50]), ("b@ucsd.edu", [none])]⟩

/-! ### Gradescope lateness (`Gradescope.convert_raw` / `compute_grade` /
`process_slip_day`) -/

/-- Pandas `idxmax(axis=1)` over labelled row values: the label and value of
the first occurrence of the row maximum (pandas keeps the first column on a
tie), `none` on an empty column set. -/
def idxmax : List (String × ℚ) → Option (String × ℚ)
  | [] => none
  | x :: xs =>
      match idxmax xs with
      | some m => if x.2 < m.2 then some m else some x
      | none => some x

/-- Contiguous substring test, Python `p in s`. -/
def strContains : List Char → List Char → Bool
  | [], p => p.isEmpty
  | c :: rest, p => p.isPrefixOf (c :: rest) || strContains rest p

/-- The helper `late_category` of `Gradescope.convert_raw`: the factor of the
first policy category whose key occurs in the lowercased column label, or
`none` when no category matches (Python returns `None`). -/
def late_category (s : String) (policy : List (String × ℚ)) : Option ℚ :=
  policy.findSome? (fun cf =>
    if strContains s.toLower.data cf.1.data then some cf.2 else none)

/-- The `late_cols` selection of `Gradescope.convert_raw`: lateness-sheet
columns whose lowercased label contains some policy key. -/
def late_cols (policy : List (String × ℚ)) (columns : List String) : List String :=
  columns.filter (fun col => policy.any (fun cf => strContains col.toLower.data cf.1.data))

/-- The `late_factor` of one lateness row: `idxmax` over the indicator
columns, the winning label mapped through `late_category`, and the missing
result filled by `fillna(1.0)`. `cols` and `vals` are the indicator column
labels and this row's values under them, in sheet order. -/
def late_factor (policy : List (String × ℚ)) (cols : List String) (vals : List ℚ) : ℚ :=
  match idxmax (cols.zip vals) with
  | some m => (late_category m.1 policy).getD 1
  | none => 1

/-- The lateness policy selected for a `Gradescope` instance. -/
inductive LatePolicy where
  | noPolicy
  | penalty
  | slipDay
  deriving DecidableEq, Repr

/-- `Gradescope.compute_grade` on one row: only under the penalty policy is
the assignment score multiplied by the row's `late_factor`; afterwards every
other-section value is added. The slip-day flag is not read at all. -/
def gsRowScore (pol : LatePolicy) (score factor : ℚ) (slip_day : ℕ) (others : List ℚ) : ℚ :=
  (if pol = .penalty then score * factor else score) + others.sum

/-- The `slip_day` flag of `Gradescope.convert_raw`: `idxmax` over the two
indicator columns No Lateness and Slip Day Used, 0 when the winner is No
Lateness and 1 otherwise. -/
def slip_day_flag (noLateness slipDayUsed : ℚ) : ℕ :=
  match idxmax [("No Lateness", noLateness), ("Slip Day Used", slipDayUsed)] with
  | some m => if m.1 = "No Lateness" then 0 else 1
  | none => 0

/-- `Gradescope.process_slip_day`: with `rows` the per-student new flags and
`last_grade` the previously posted totals fetched from the remote assignment
(`fillna(0)` for students with no posted grade), keep only the students
whose new flag is positive and post flag plus previous total for each. -/
def process_slip_day (rows : List (String × ℕ)) (last_grade : String → Option ℤ) :
    List (String × ℤ) :=
  (rows.filter (fun r => 0 < r.2)).map
    (fun r => (r.1, (r.2 : ℤ) + ((last_grade r.1).getD 0)))

/-- First row of a key-unique Email-keyed sheet under a key. -/
def lookupKey {β : Type} (l : List (String × β)) (e : String) : Option β :=
  (l.find? (fun r => r.1 == e)).map Prod.snd

/-- The other-section merge of `Gradescope.convert_raw` on key-unique sheets:
pandas `merge(on='Email')` with the default inner join, keeping exactly the
primary rows whose Email also appears in the section sheet. -/
def mergeOtherSection (primary : List (String × ℚ)) (sec : List (String × ℚ)) :
    List (String × ℚ × ℚ) :=
  primary.filterMap (fun p => (lookupKey sec p.1).map (fun v => (p.1, p.2, v)))

/-! ### Roster merge (`Gradebook.create_gradebook`) -/

/-- One row of the merged gradebook: the email key, the roster payload when
the email is on the roster, and the assignment score cell. -/
structure MergedRow (β : Type) where
  email : String
  roster : Option β
  score : Option ℚ
  deriving DecidableEq, Repr

/-- Pandas `students.merge(gradebook, on='email', how='outer')` on key-unique
frames: every roster row paired with its score when one exists, followed by
the score rows whose email is not on the roster (blank roster fields). -/
def outerMerge {β : Type} (students : List (String × β)) (scores : List (String × ℚ)) :
    List (MergedRow β) :=
  students.map (fun s => ⟨s.1, some s.2, lookupKey scores s.1⟩) ++
    (scores.filter (fun sc => (lookupKey students sc.1).isNone)).map
      (fun sc => ⟨sc.1, none, some sc.2⟩)

/-- The `fillna(0)` applied to the assignment column after the outer merge. -/
def fillScoreZero {β : Type} (rows : List (MergedRow β)) : List (MergedRow β) :=
  rows.map (fun r => ⟨r.email, r.roster, some (r.score.getD 0)⟩)

/-- The roster-merge step of `Gradebook.create_gradebook` (identical in
`Gradescope.create_gradebook`): outer join on email, then fill the missing
assignment scores with zero. -/
def create_gradebook {β : Type} (students : List (String × β))
    (scores : List (String × ℚ)) : List (MergedRow β) :=
  fillScoreZero (outerMerge students scores)

/-! ### Publish polling (`Gradebook.track_progress`) -/

/-- A remote bulk-update progress handle: the completion percentage and the
workflow state that the polling loop observes at each iteration. -/
structure Progress where
  completion : ℕ → ℤ
  workflow_state : ℕ → String

/-- One iteration of `Gradebook.track_progress`: `none` when the loop guard
`completion != 100` fails and the loop exits; otherwise `some true` for the
failed branch (print Progress Failed, loop again) and `some false` for the
sleep branch. -/
def trackStep (p : Progress) (i : ℕ) : Option Bool :=
  if p.completion i = 100 then none
  else if p.workflow_state i = "failed" then some true else some false

/-- The loop of `Gradebook.track_progress` from iteration `i` with `fuel`
observations left: `some k` when the guard fails within the fuel (the loop
returns after `k` further iterations), `none` when it is still running. -/
def trackLoop (p : Progress) : ℕ → ℕ → Option ℕ
  | i, 0 => if p.completion i = 100 then some 0 else none
  | i, fuel + 1 =>
      if p.completion i = 100 then some 0
      else (trackLoop p (i + 1) fuel).map (· + 1)

/-- Termination of the `track_progress` loop: the guard eventually fails. -/
def trackTerminates (p : Progress) : Prop :=
  ∃ fuel, (trackLoop p 0 fuel).isSome

/-- A progress handle for a failed job: the workflow state is failed at
every observation and the completion never reaches 100. -/
def failedProgress : Progress := ⟨fun _ => 0, fun _ => "failed"⟩

/-- A caller-supplied penalty policy with factors in the unit interval. -/
def gsPolicy1 : List (String × ℚ) := [("slip day", 0), ("late", 4/5)]

/-- The three-student roster of the merge fixture (payload = Canvas id). -/
def gsRoster1 : List (String × ℤ) :=
  [("a@ucsd.edu", 11), ("b@ucsd.edu", 12), ("c@ucsd.edu", 13)]

/-- The two-row score table of the merge fixture: one roster student with a
score and one scored email that is not on the roster. -/
def gsScores1 : List (String × ℚ) := [("a@ucsd.edu", 80), ("d@ucsd.edu", 70)]

/-! ### Helper lemmas -/

theorem bucketizePV_fin (q : ℚ) : bucketizePV (.fin q) = bucketizeQ q := by
  simp [bucketizePV, bucketizeQ, pge]

theorem bucketizeQ_mono {q q' : ℚ} (h : q ≤ q') : bucketizeQ q ≤ bucketizeQ q' := by
  unfold bucketizeQ
  split_ifs <;> linarith

theorem roundHalfEven_zero : roundHalfEven 0 = 0 := by
  simp [roundHalfEven]

theorem optMapM_eq_map {α β : Type} (f : α → Option β) (g : α → β) :
    ∀ (l : List α) (ys : List β), (∀ x ∈ l, ∀ y, f x = some y → y = g x) →
      optMapM f l = some ys → ys = l.map g := by
  intro l
  induction l with
  | nil =>
      intro ys _ h
      simp [optMapM] at h
      simp [h.symm]
  | cons x xs ih =>
      intro ys hg h
      unfold optMapM at h
      cases hf : f x with
      | none => rw [hf] at h; simp at h
      | some y =>
          cases hrest : optMapM f xs with
          | none => rw [hf, hrest] at h; simp at h
          | some ys2 =>
              rw [hf, hrest] at h
              simp only [Option.some_inj] at h
              subst h
              have h1 : y = g x := hg x (by simp) y hf
              have h2 : ys2 = xs.map g :=
                ih ys2 (fun a ha b hb => hg a (by simp [ha]) b hb) hrest
              simp [h1, h2]

theorem optMapM_mem {α β : Type} (f : α → Option β) :
    ∀ (l : List α) (ys : List β), optMapM f l = some ys →
      ∀ y ∈ ys, ∃ x ∈ l, f x = some y := by
  intro l
  induction l with
  | nil =>
      intro ys h
      simp [optMapM] at h
      subst h
      intro y hy
      simp at hy
  | cons x xs ih =>
      intro ys h
      unfold optMapM at h
      cases hf : f x with
      | none => rw [hf] at h; simp at h
      | some y0 =>
          cases hrest : optMapM f xs with
          | none => rw [hf, hrest] at h; simp at h
          | some ys2 =>
              rw [hf, hrest] at h
              simp only [Option.some_inj] at h
              subst h
              intro y hy
              rcases List.mem_cons.mp hy with hy | hy
              · exact ⟨x, by simp, by rw [hf, hy]⟩
              · rcases ih ys2 hrest y hy with ⟨a, ha, hfa⟩
                exact ⟨a, by simp [ha], hfa⟩

theorem optMapM_length {α β : Type} (f : α → Option β) :
    ∀ (l : List α) (ys : List β), optMapM f l = some ys → ys.length = l.length := by
  intro l
  induction l with
  | nil =>
      intro ys h
      simp [optMapM] at h
      subst h
      rfl
  | cons x xs ih =>
      intro ys h
      unfold optMapM at h
      cases hf : f x with
      | none => rw [hf] at h; simp at h
      | some y =>
          cases hrest : optMapM f xs with
          | none => rw [hf, hrest] at h; simp at h
          | some ys2 =>
              rw [hf, hrest] at h
              simp only [Option.some_inj] at h
              subst h
              simp [ih ys2 hrest]

theorem idxmax_eq_none {l : List (String × ℚ)} (h : idxmax l = none) : l = [] := by
  cases l with
  | nil => rfl
  | cons x xs =>
      exfalso
      unfold idxmax at h
      cases hx : idxmax xs with
      | none => simp only [hx] at h; exact Option.noConfusion h
      | some mx =>
          simp only [hx] at h
          split at h <;> exact Option.noConfusion h

theorem idxmax_spec (l : List (String × ℚ)) (m : String × ℚ) (h : idxmax l = some m) :
    ∃ l₁ l₂, l = l₁ ++ m :: l₂ ∧
      (∀ y ∈ l₁, y.2 < m.2) ∧ (∀ y ∈ l, y.2 ≤ m.2) := by
  induction l generalizing m with
  | nil => simp [idxmax] at h
  | cons x xs ih =>
      unfold idxmax at h
      cases hx : idxmax xs with
      | none =>
          have hxs : xs = [] := idxmax_eq_none hx
          subst hxs
          simp only [hx, Option.some_inj] at h
          subst h
          exact ⟨[], [], rfl, by simp, by simp⟩
      | some mx =>
          simp only [hx] at h
          split at h
          · rename_i hlt
            simp only [Option.some_inj] at h
            subst h
            rcases ih mx hx with ⟨l₁, l₂, hsplit, hbefore, hall⟩
            refine ⟨x :: l₁, l₂, by simp [hsplit], ?_, ?_⟩
            · intro y hy
              rcases List.mem_cons.mp hy with hy | hy
              · rw [hy]; exact hlt
              · exact hbefore y hy
            · intro y hy
              rcases List.mem_cons.mp hy with hy | hy
              · rw [hy]; exact le_of_lt hlt
              · exact hall y hy
          · rename_i hge
            simp only [Option.some_inj] at h
            subst h
            rcases ih mx hx with ⟨_, _, _, _, hall⟩
            refine ⟨[], xs, rfl, by simp, ?_⟩
            intro y hy
            rcases List.mem_cons.mp hy with hy | hy
            · rw [hy]
            · exact le_trans (hall y hy) (le_of_not_lt hge)

theorem key_nodup_unique {β : Type} (rows : List (String × β))
    (h : (rows.map Prod.fst).Nodup) (e : String) (b b' : β)
    (h1 : (e, b) ∈ rows) (h2 : (e, b') ∈ rows) : b = b' := by
  induction rows with
  | nil => simp at h1
  | cons r rest ih =>
      simp only [List.map_cons, List.nodup_cons] at h
      rcases List.mem_cons.mp h1 with h1 | h1 <;> rcases List.mem_cons.mp h2 with h2 | h2
      · rw [← h1] at h2; exact (Prod.mk.injEq _ _ _ _ ▸ h2).2.symm
      · exfalso
        apply h.1
        rw [← h1]
        exact List.mem_map.mpr ⟨(e, b'), h2, rfl⟩
      · exfalso
        apply h.1
        rw [← h2]
        exact List.mem_map.mpr ⟨(e, b), h1, rfl⟩
      · exact ih h.2 h1 h2

theorem late_category_eq_some {s : String} {policy : List (String × ℚ)} {f : ℚ}
    (h : late_category s policy = some f) : ∃ cf ∈ policy, cf.2 = f := by
  unfold late_category at h
  rcases List.exists_of_findSome?_eq_some h with ⟨cf, hcf, hval⟩
  refine ⟨cf, hcf, ?_⟩
  by_cases hc : strContains s.toLower.data cf.1.data = true <;> simp [hc] at hval
  exact hval

theorem lookupKey_eq_none {β : Type} {l : List (String × β)} {e : String}
    (h : lookupKey l e = none) : ∀ r ∈ l, r.1 ≠ e := by
  intro r hr
  unfold lookupKey at h
  rcases Option.map_eq_none.mp h with hfind
  have := List.find?_eq_none.mp hfind r hr
  simpa using this

theorem lookupKey_isSome_of_mem {β : Type} {l : List (String × β)} {e : String} {b : β}
    (h : (e, b) ∈ l) : (lookupKey l e).isSome := by
  unfold lookupKey
  cases hfind : l.find? (fun r => r.1 == e) with
  | none =>
      exfalso
      have := List.find?_eq_none.mp hfind (e, b) h
      simp at this
  | some r => simp

theorem trackLoop_stuck (p : Progress) (hc : ∀ i, p.completion i ≠ 100) :
    ∀ fuel i, trackLoop p i fuel = none := by
  intro fuel
  induction fuel with
  | zero => intro i; simp [trackLoop, hc i]
  | succ f ih => intro i; simp [trackLoop, hc i, ih (i + 1)]

/-! ### Claim theorems -/

/-- C2: the bucketizer of `Zybook.compute_grade` follows the fixed
right-inclusive breakpoint table (percentage ≥ 93 gives 5, ≥ 80 gives 4,
≥ 60 gives 3, ≥ 40 gives 2, ≥ 20 gives 1, else 0), takes the stated boundary
values bucketize(93) = 5, bucketize(92.999) = 4, bucketize(0) = 0,
bucketize(100) = 5, and is monotonic non-decreasing in the percentage. -/
theorem C2_bucketize_table (q q' : ℚ) (h : q ≤ q') :
    bucketizeQ q ≤ bucketizeQ q' ∧
    (93 ≤ q → bucketizeQ q = 5) ∧
    (80 ≤ q → q < 93 → bucketizeQ q = 4) ∧
    (60 ≤ q → q < 80 → bucketizeQ q = 3) ∧
    (40 ≤ q → q < 60 → bucketizeQ q = 2) ∧
    (20 ≤ q → q < 40 → bucketizeQ q = 1) ∧
    (q < 20 → bucketizeQ q = 0) ∧
    bucketizeQ 93 = 5 ∧ bucketizeQ (92999 / 1000) = 4 ∧
    bucketizeQ 0 = 0 ∧ bucketizeQ 100 = 5 := by
  refine ⟨bucketizeQ_mono h, ?_, ?_, ?_, ?_, ?_, ?_, ?_, ?_, ?_, ?_⟩ <;>
    first
      | (intro h1 h2; unfold bucketizeQ; split_ifs <;> first | rfl | linarith)
      | (intro h1; unfold bucketizeQ; split_ifs <;> first | rfl | linarith)
      | (unfold bucketizeQ; norm_num)

/-- Witness for C2 at the concrete pair 85 ≤ 92.999. -/
theorem C2_bucketize_table_witness :
    (85 : ℚ) ≤ 92999 / 1000 ∧ bucketizeQ 85 ≤ bucketizeQ (92999 / 1000) ∧
      bucketizeQ 85 = 4 := by
  have h := C2_bucketize_table 85 (92999 / 1000) (by norm_num)
  exact ⟨by norm_num, h.1, h.2.2.1 (by norm_num) (by norm_num)⟩

/-- C3: the total possible score of a Zybook batch is the sum of the parsed
weights of exactly the header labels that matched a rubric sub-pattern: a
matched label contributes its parsed weight, an unmatched label contributes
nothing. With the docstring rubric declaring three activities but a header
set carrying only two of them, the denominator is 10, not inflated by the
absent declared column. -/
theorem C3_total_is_matched_sum (config : List (String × List String))
    (columns : List String) :
    total_score config columns =
      (columns.map (fun col =>
        match scanMatch (configPairs config) col.data with
        | some cw => cw.2
        | none => 0)).sum ∧
    total_score [("1.2", ["Participation"]), ("1.3", ["Participation", "Challenge"])]
      ["1.2 - Participation (5)", "1.3 - Participation (5)", "Primary email"] = 10 := by
  constructor
  · unfold total_score col_info
    induction columns with
    | nil => rfl
    | cons c cs ih =>
        simp only [List.filterMap_cons, List.map_cons, List.sum_cons]
        cases hm : scanMatch (configPairs config) c.data with
        | none => simpa using ih
        | some cw => simp [ih]
  · rfl

/-- C10: a Slido participation grade is 1 exactly when the fraction of
poll-question columns with a missing answer is at most `1 - min_poll` (for
the default `min_poll = 3/4`: the student answered at least 75 percent of
the polled questions), and the grade is always 0 or 1. -/
theorem C10_slido_threshold (min_poll : ℚ) (answers : List (Option ℚ))
    (h : 0 < answers.length) :
    (slidoGrade min_poll answers = 1 ↔
      ((answers.countP (fun a => a.isNone) : ℚ) / answers.length ≤ 1 - min_poll)) ∧
    (slidoGrade min_poll answers = 0 ∨ slidoGrade min_poll answers = 1) ∧
    (slidoGrade (3 / 4) answers = 1 ↔
      ((answers.countP (fun a => a.isNone) : ℚ) / answers.length ≤ 1 / 4)) := by
  have hne : answers.length ≠ 0 := Nat.pos_iff_ne_zero.mp h
  refine ⟨?_, ?_, ?_⟩
  · unfold slidoGrade
    simp only [hne, if_false]
    split_ifs with hc <;> simp [hc]
  · unfold slidoGrade
    split_ifs <;> simp
  · unfold slidoGrade
    simp only [hne, if_false]
    have h34 : (1 : ℚ) - 3 / 4 = 1 / 4 := by norm_num
    rw [h34]
    split_ifs with hc <;> simp [hc] <;> linarith

/-- Witness for C10: four questions, one unanswered, default threshold. -/
theorem C10_slido_threshold_witness :
    0 < ([some 1, some 1, some 1, none] : List (Option ℚ)).length ∧
      slidoGrade (3 / 4) [some 1, some 1, some 1, none] = 1 := by
  refine ⟨by decide, ?_⟩
  have h := C10_slido_threshold (3 / 4) [some (1 : ℚ), some 1, some 1, none] (by decide)
  refine h.2.2.mpr ?_
  rw [show List.countP (fun a => a.isNone)
    ([some (1 : ℚ), some 1, some 1, none]) = 1 from rfl]
  norm_num

theorem contribOf_eval {columns : List String} {vals : List (Option ℚ)} {c : String}
    {v : Option ℚ} (w : ℕ) (hl : lookupCol columns vals c = some v) :
    contribOf columns vals (c, w) = some (roundHalfEven (v.getD 0 * w / 100)) := by
  unfold contribOf
  rw [hl]
  rfl

theorem zyRow30_eval :
    optMapM (contribOf zyCols1 [some 30, some 30]) (col_info zyCfg1 zyCols1) =
      some [2, 2] := by
  have hl1 : lookupCol zyCols1 [some 30, some 30] "1.1 - Participation (5)" =
      some (some 30) := rfl
  have hl2 : lookupCol zyCols1 [some 30, some 30] "1.1 - Challenge (5)" =
      some (some 30) := rfl
  have hc1 : contribOf zyCols1 [some 30, some 30] ("1.1 - Participation (5)", 5) =
      some 2 := by
    rw [contribOf_eval 5 hl1, Option.some_inj]
    norm_num [roundHalfEven, Int.fract]
  have hc2 : contribOf zyCols1 [some 30, some 30] ("1.1 - Challenge (5)", 5) =
      some 2 := by
    rw [contribOf_eval 5 hl2, Option.some_inj]
    norm_num [roundHalfEven, Int.fract]
  rw [show col_info zyCfg1 zyCols1 =
    [("1.1 - Participation (5)", 5), ("1.1 - Challenge (5)", 5)] from rfl]
  simp [optMapM, hc1, hc2]

theorem zyProcess_zyCsv0_eval :
    zyProcess zyCfg0 zyCsv0 = some [⟨"a@ucsd.edu", 0, .nan, 0⟩] := by
  have hl : lookupCol zyCsv0.columns [some 50] "1.1 - Participation (0)" =
      some (some 50) := rfl
  have hc : contribOf zyCsv0.columns [some 50] ("1.1 - Participation (0)", 0) =
      some 0 := by
    rw [contribOf_eval 0 hl, Option.some_inj]
    norm_num [roundHalfEven, Int.fract]
  have hconv : zyConvertRaw zyCfg0 zyCsv0 =
      some ([("1.1 - Participation (0)", 0)], [("a@ucsd.edu", [0])]) := by
    simp only [zyConvertRaw]
    rw [show col_info zyCfg0 zyCsv0.columns = [("1.1 - Participation (0)", 0)] from rfl,
      show zyCsv0.rows = [("a@ucsd.edu", [some 50])] from rfl]
    simp [optMapM, hc]
  unfold zyProcess
  rw [hconv]
  simp [floatDiv, percScale, bucketizePV, pge]

theorem zyProcess_noMatch_eval :
    zyProcess zyCfg0 zyCsvNoMatch =
      some [⟨"a@ucsd.edu", 0, .nan, 0⟩, ⟨"b@ucsd.edu", 0, .nan, 0⟩] := by
  have hconv : zyConvertRaw zyCfg0 zyCsvNoMatch =
      some ([], [("a@ucsd.edu", []), ("b@ucsd.edu", [])]) := by
    simp only [zyConvertRaw]
    rw [show col_info zyCfg0 zyCsvNoMatch.columns = [] from rfl,
      show zyCsvNoMatch.rows =
        [("a@ucsd.edu", [some 50]), ("b@ucsd.edu", [none])] from rfl]
    simp [optMapM]
  unfold zyProcess
  rw [hconv]
  simp [floatDiv, percScale, bucketizePV, pge]

/-- C1: for each Zybook row the raw aggregate score is the sum, over the
matched columns, of the per-column rounded contribution
round(value × weight / 100), a blank cell counting as zero; rounding is
applied per column before the summation, and on the worked example (two
weight-5 columns at value 30) this differs from rounding the summed
contributions afterwards (4 versus 3). -/
theorem C1_round_before_sum (config : List (String × List String))
    (columns : List String) (vals : List (Option ℚ)) (ss : List ℤ)
    (h : optMapM (contribOf columns vals) (col_info config columns) = some ss) :
    ss.sum = ((col_info config columns).map (fun cw =>
        roundHalfEven ((((lookupCol columns vals cw.1).getD none).getD 0)
          * cw.2 / 100))).sum ∧
    (∀ cw : String × ℕ, lookupCol columns vals cw.1 = some none →
      contribOf columns vals cw = some 0) ∧
    optMapM (contribOf zyCols1 [some 30, some 30]) (col_info zyCfg1 zyCols1) =
      some [2, 2] ∧
    ([2, 2] : List ℤ).sum = 4 ∧
    roundHalfEven (30 * 5 / 100 + 30 * 5 / 100) = 3 := by
  refine ⟨?_, ?_, zyRow30_eval, by norm_num,
    by norm_num [roundHalfEven, Int.fract]⟩
  case refine_2 =>
    intro cw hl
    rw [contribOf_eval cw.2 hl, Option.some_inj]
    simp [roundHalfEven_zero]
  have hss := optMapM_eq_map (contribOf columns vals)
    (fun cw => roundHalfEven ((((lookupCol columns vals cw.1).getD none).getD 0)
      * cw.2 / 100))
    (col_info config columns) ss ?_ h
  · rw [hss]
  · intro cw _ y hy
    unfold contribOf at hy
    cases hl : lookupCol columns vals cw.1 with
    | none => rw [hl] at hy; simp at hy
    | some v => rw [hl] at hy; simp at hy; rw [← hy]; simp [hl]

/-- Witness for C1 on the worked example: both matched cells convert and the
row total is the sum of the per-column roundings. -/
theorem C1_round_before_sum_witness :
    optMapM (contribOf zyCols1 [some 30, some 30]) (col_info zyCfg1 zyCols1) =
      some [2, 2] ∧
    ([2, 2] : List ℤ).sum = ((col_info zyCfg1 zyCols1).map (fun cw =>
      roundHalfEven ((((lookupCol zyCols1 [some 30, some 30] cw.1).getD none).getD 0)
        * cw.2 / 100))).sum :=
  ⟨zyRow30_eval,
    (C1_round_before_sum zyCfg1 zyCols1 [some 30, some 30] [2, 2] zyRow30_eval).1⟩

/-- C4 counterexample: two batches of total possible score 0 — the sheet
`zyCsvNoMatch` on which no column matched the rubric, and the sheet `zyCsv0`
whose single matched column carries weight 0. On both, the percentage
division raises nothing: score records are still produced, one per csv row,
each with percentage pandas 0/0 = nan and bucketed grade 0 — there is no
DataIntegrityError (nor any error path) in the code. -/
theorem C4_counterexample :
    total_score zyCfg0 zyCsvNoMatch.columns = 0 ∧
    col_info zyCfg0 zyCsvNoMatch.columns = [] ∧
    zyProcess zyCfg0 zyCsvNoMatch =
      some [⟨"a@ucsd.edu", 0, .nan, 0⟩, ⟨"b@ucsd.edu", 0, .nan, 0⟩] ∧
    total_score zyCfg0 zyCsv0.columns = 0 ∧
    zyProcess zyCfg0 zyCsv0 = some [⟨"a@ucsd.edu", 0, .nan, 0⟩] :=
  ⟨rfl, rfl, zyProcess_noMatch_eval, rfl, zyProcess_zyCsv0_eval⟩

/-- C4 amended: when a batch's total possible score is zero — no column
matched, or every matched column carries weight zero — computing the
percentage does not raise: score records are still produced, exactly one per
csv row, and each has raw score 0, percentage nan (the pandas 0/0), and
bucketed grade 0. -/
theorem C4_zero_total_silent (config : List (String × List String)) (csv : ZyCSV)
    (recs : List ZyRecord) (h0 : total_score config csv.columns = 0)
    (h : zyProcess config csv = some recs) :
    recs.length = csv.rows.length ∧
    ∀ r ∈ recs, r.row_total = 0 ∧ r.percentage = .nan ∧ r.grade = 0 := by
  unfold zyProcess at h
  rcases Option.map_eq_some'.mp h with ⟨gb, hgb, hrecs⟩
  have hwt : ∀ cw ∈ col_info config csv.columns, cw.2 = 0 := by
    intro cw hcw
    have := List.sum_eq_zero_iff.mp h0 cw.2 (List.mem_map.mpr ⟨cw, hcw, rfl⟩)
    exact this
  have hgb1 : gb.1 = col_info config csv.columns ∧
      gb.2.length = csv.rows.length ∧
      ∀ p ∈ gb.2, p.2.sum = 0 := by
    simp only [zyConvertRaw] at hgb
    rcases Option.map_eq_some'.mp hgb with ⟨rs, hrs, hpair⟩
    refine ⟨by rw [← hpair], ?_, ?_⟩
    · rw [← hpair]
      exact optMapM_length _ csv.rows rs hrs
    · intro p hp
      rw [← hpair] at hp
      rcases optMapM_mem _ csv.rows rs hrs p hp with ⟨row, _, hrow⟩
      rcases Option.map_eq_some'.mp hrow with ⟨ss, hss, hpss⟩
      have hz : ss = (col_info config csv.columns).map (fun _ => (0 : ℤ)) := by
        apply optMapM_eq_map _ _ _ _ ?_ hss
        intro cw hcw y hy
        unfold contribOf at hy
        cases hl : lookupCol csv.columns row.2 cw.1 with
        | none => rw [hl] at hy; simp at hy
        | some v =>
            rw [hl] at hy
            simp at hy
            rw [← hy, hwt cw hcw]
            simp [roundHalfEven_zero]
      rw [← hpss]
      simp only
      rw [hz]
      apply List.sum_eq_zero
      intro x hx
      simpa using (List.mem_map.mp hx).choose_spec.2.symm
  constructor
  · rw [← hrecs]
    simpa using hgb1.2.1
  · intro r hr
    rw [← hrecs] at hr
    rcases List.mem_map.mp hr with ⟨p, hp, hpr⟩
    have hts : ((gb.1.map Prod.snd).sum : ℕ) = 0 := by
      rw [hgb1.1]; exact h0
    have hsum := hgb1.2.2 p hp
    rw [← hpr]
    refine ⟨hsum, ?_, ?_⟩ <;>
      simp [hsum, hts, floatDiv, percScale, bucketizePV, pge]

/-- Witness for C4 amended at the no-match sheet: two csv rows give two
records, each with percentage nan and grade 0. -/
theorem C4_zero_total_silent_witness :
    total_score zyCfg0 zyCsvNoMatch.columns = 0 ∧
    ([(⟨"a@ucsd.edu", 0, .nan, 0⟩ : ZyRecord), ⟨"b@ucsd.edu", 0, .nan, 0⟩].length =
      zyCsvNoMatch.rows.length) ∧
    ∀ r ∈ [(⟨"a@ucsd.edu", 0, .nan, 0⟩ : ZyRecord), ⟨"b@ucsd.edu", 0, .nan, 0⟩],
      r.row_total = 0 ∧ r.percentage = .nan ∧ r.grade = 0 := by
  have h := C4_zero_total_silent zyCfg0 zyCsvNoMatch
    [⟨"a@ucsd.edu", 0, .nan, 0⟩, ⟨"b@ucsd.edu", 0, .nan, 0⟩] rfl zyProcess_noMatch_eval
  exact ⟨rfl, h.1, h.2⟩

/-- C5: under the penalty policy every lateness row's factor is chosen by
argmax over the caller-supplied indicator columns, ties between equal
maximal indicator values won by the first-occurring column; a row whose
winning column matches no policy category defaults to factor 1.0; the factor
stays in [0,1] whenever the caller's factors are in [0,1]; and
`compute_grade` multiplies the assignment score by exactly this factor. -/
theorem C5_penalty_argmax (policy : List (String × ℚ)) (cols : List String)
    (vals : List ℚ) (score : ℚ)
    (hpol : ∀ cf ∈ policy, 0 ≤ cf.2 ∧ cf.2 ≤ 1) :
    (0 ≤ late_factor policy cols vals ∧ late_factor policy cols vals ≤ 1) ∧
    (∀ m, idxmax (cols.zip vals) = some m →
      (∃ l₁ l₂, cols.zip vals = l₁ ++ m :: l₂ ∧
        (∀ y ∈ l₁, y.2 < m.2) ∧ (∀ y ∈ cols.zip vals, y.2 ≤ m.2)) ∧
      late_factor policy cols vals = (late_category m.1 policy).getD 1) ∧
    (∀ m, idxmax (cols.zip vals) = some m → late_category m.1 policy = none →
      late_factor policy cols vals = 1) ∧
    gsRowScore .penalty score (late_factor policy cols vals) 0 [] =
      score * late_factor policy cols vals := by
  refine ⟨?_, ?_, ?_, ?_⟩
  · unfold late_factor
    cases hm : idxmax (cols.zip vals) with
    | none => norm_num
    | some m =>
        change 0 ≤ (late_category m.1 policy).getD 1 ∧
          (late_category m.1 policy).getD 1 ≤ 1
        cases hlc : late_category m.1 policy with
        | none => norm_num [Option.getD_none]
        | some f =>
            rcases late_category_eq_some hlc with ⟨cf, hcf, hval⟩
            simp only [Option.getD_some]
            rw [← hval]
            exact hpol cf hcf
  · intro m hm
    refine ⟨idxmax_spec _ m hm, ?_⟩
    unfold late_factor
    rw [hm]
  · intro m hm hnone
    unfold late_factor
    rw [hm]
    simp [hnone]
  · unfold gsRowScore
    simp

/-- Witness for C5: a one-column lateness row under a two-category policy
whose factors are 0 and 4/5. -/
theorem C5_penalty_argmax_witness :
    (∀ cf ∈ gsPolicy1, 0 ≤ cf.2 ∧ cf.2 ≤ 1) ∧
    (0 ≤ late_factor gsPolicy1 ["Late (max 1 day)"] [1] ∧
      late_factor gsPolicy1 ["Late (max 1 day)"] [1] ≤ 1) := by
  have hpol : ∀ cf ∈ gsPolicy1, 0 ≤ cf.2 ∧ cf.2 ≤ 1 := by
    intro cf hcf
    simp only [gsPolicy1, List.mem_cons, List.not_mem_nil, or_false] at hcf
    rcases hcf with h | h <;> subst h <;> norm_num
  exact ⟨hpol, (C5_penalty_argmax gsPolicy1 ["Late (max 1 day)"] [1] 0 hpol).1⟩

/-- C6: under the slip-day policy the flag never scales the assignment score
(`compute_grade` leaves the score at aggregate plus other sections, whatever
the flag); in the posted update every student with a positive new flag is
posted the previously posted running total plus this batch's flag, and every
student whose new flag is zero is omitted from the payload. -/
theorem C6_slip_day_accumulates (score factor : ℚ) (flag flag' : ℕ)
    (others : List ℚ) (rows : List (String × ℕ)) (last_grade : String → Option ℤ)
    (hnodup : (rows.map Prod.fst).Nodup) :
    gsRowScore .slipDay score factor flag others = score + others.sum ∧
    gsRowScore .slipDay score factor flag others =
      gsRowScore .slipDay score factor flag' others ∧
    (∀ e p, (e, p) ∈ process_slip_day rows last_grade →
      ∃ f, (e, f) ∈ rows ∧ 0 < f ∧ p = (f : ℤ) + ((last_grade e).getD 0)) ∧
    (∀ e f, (e, f) ∈ rows → 0 < f →
      (e, (f : ℤ) + ((last_grade e).getD 0)) ∈ process_slip_day rows last_grade) ∧
    (∀ e, (e, 0) ∈ rows → ∀ p, (e, p) ∉ process_slip_day rows last_grade) := by
  have hmem : ∀ e p, (e, p) ∈ process_slip_day rows last_grade →
      ∃ f, (e, f) ∈ rows ∧ 0 < f ∧ p = (f : ℤ) + ((last_grade e).getD 0) := by
    intro e p hp
    unfold process_slip_day at hp
    rcases List.mem_map.mp hp with ⟨r, hr, hre⟩
    rcases List.mem_filter.mp hr with ⟨hrmem, hrpos⟩
    have h1 : r.1 = e := congrArg Prod.fst hre
    have h2 : (r.2 : ℤ) + (last_grade r.1).getD 0 = p := congrArg Prod.snd hre
    refine ⟨r.2, ?_, by simpa using hrpos, ?_⟩
    · rw [← h1]
      exact hrmem
    · rw [← h2, h1]
  refine ⟨by unfold gsRowScore; simp, by unfold gsRowScore; simp, hmem, ?_, ?_⟩
  · intro e f hef hfpos
    unfold process_slip_day
    refine List.mem_map.mpr ⟨(e, f), ?_, rfl⟩
    exact List.mem_filter.mpr ⟨hef, by simpa using hfpos⟩
  · intro e he0 p hp
    rcases hmem e p hp with ⟨f, hef, hfpos, _⟩
    have := key_nodup_unique rows hnodup e 0 f he0 hef
    omega

/-- Witness for C6: two students, one using a slip day, one on time, with a
previously posted total of 1 for the first. -/
theorem C6_slip_day_accumulates_witness :
    ((["x@ucsd.edu", "y@ucsd.edu"] : List String).Nodup) ∧
    gsRowScore .slipDay 95 (1/2) 1 [] = 95 + ([] : List ℚ).sum ∧
    ("x@ucsd.edu", ((1 : ℕ) : ℤ) + ((fun e =>
        if e = "x@ucsd.edu" then some 1 else none) "x@ucsd.edu" |>.getD 0)) ∈
      process_slip_day [("x@ucsd.edu", 1), ("y@ucsd.edu", 0)]
        (fun e => if e = "x@ucsd.edu" then some 1 else none) ∧
    ∀ p, ("y@ucsd.edu", p) ∉ process_slip_day [("x@ucsd.edu", 1), ("y@ucsd.edu", 0)]
        (fun e => if e = "x@ucsd.edu" then some 1 else none) := by
  have hnd : ((([("x@ucsd.edu", 1), ("y@ucsd.edu", 0)] :
      List (String × ℕ)).map Prod.fst).Nodup) := by
    simp
  have h := C6_slip_day_accumulates 95 (1/2) 1 0 []
    [("x@ucsd.edu", 1), ("y@ucsd.edu", 0)]
    (fun e => if e = "x@ucsd.edu" then some 1 else none) hnd
  refine ⟨by simp, h.1, ?_, ?_⟩
  · exact h.2.2.2.1 "x@ucsd.edu" 1 (by simp) (by norm_num)
  · exact h.2.2.2.2 "y@ucsd.edu" (by simp)

/-- C7 counterexample: joining an other-section sheet that is missing
student b onto a primary sheet containing b silently drops b's row: the
merge is a total function into a plain list, b is gone from the output key
set, and no data-integrity condition of any kind is raised. -/
theorem C7_counterexample :
    mergeOtherSection [("a@ucsd.edu", 80), ("b@ucsd.edu", 90)] [("a@ucsd.edu", 5)] =
      [("a@ucsd.edu", 80, 5)] ∧
    ("b@ucsd.edu", (90 : ℚ)) ∈ [("a@ucsd.edu", (80 : ℚ)), ("b@ucsd.edu", 90)] ∧
    (mergeOtherSection [("a@ucsd.edu", 80), ("b@ucsd.edu", 90)]
      [("a@ucsd.edu", 5)]).map (fun r => r.1) = ["a@ucsd.edu"] :=
  ⟨rfl, by simp, rfl⟩

/-- C7 amended: the other-section merge is a pandas inner join: a
primary-sheet student with no row in the other-section sheet is silently
dropped from the result, only emails present in both sheets survive, and no
error is raised (the merge is a total function into a plain list). -/
theorem C7_inner_join_drops (primary sec : List (String × ℚ)) (e : String) (v : ℚ)
    (hmem : (e, v) ∈ primary) (habs : lookupKey sec e = none) :
    (∀ r ∈ mergeOtherSection primary sec, r.1 ≠ e) ∧
    (∀ r ∈ mergeOtherSection primary sec, (lookupKey sec r.1).isSome) := by
  have hform : ∀ r ∈ mergeOtherSection primary sec,
      ∃ w, lookupKey sec r.1 = some w := by
    intro r hr
    unfold mergeOtherSection at hr
    rcases List.mem_filterMap.mp hr with ⟨p, _, hpr⟩
    cases hlk : lookupKey sec p.1 with
    | none => rw [hlk] at hpr; simp at hpr
    | some w =>
        rw [hlk] at hpr
        simp only [Option.map_some', Option.some_inj] at hpr
        refine ⟨w, ?_⟩
        rw [← hpr, hlk]
  constructor
  · intro r hr hre
    rcases hform r hr with ⟨w, hw⟩
    rw [hre, habs] at hw
    exact Option.noConfusion hw
  · intro r hr
    rcases hform r hr with ⟨w, hw⟩
    simp [hw]

/-- Witness for C7 amended at the two-row primary sheet. -/
theorem C7_inner_join_drops_witness :
    (("b@ucsd.edu", (90 : ℚ)) ∈ [("a@ucsd.edu", (80 : ℚ)), ("b@ucsd.edu", 90)] ∧
     lookupKey [("a@ucsd.edu", (5 : ℚ))] "b@ucsd.edu" = none) ∧
    ∀ r ∈ mergeOtherSection [("a@ucsd.edu", 80), ("b@ucsd.edu", 90)]
        [("a@ucsd.edu", 5)], r.1 ≠ "b@ucsd.edu" :=
  ⟨⟨by simp, rfl⟩,
    (C7_inner_join_drops [("a@ucsd.edu", 80), ("b@ucsd.edu", 90)]
      [("a@ucsd.edu", 5)] "b@ucsd.edu" 90 (by simp) rfl).1⟩

/-- C8: the roster merge is a full outer join by email: every score-table
email and every roster email appears in the merged result; every merged
row's assignment score cell is filled; and a merged row whose email has no
score row carries score zero (a student who never submitted gets 0, not an
error). -/
theorem C8_roster_outer_join {β : Type} (students : List (String × β))
    (scores : List (String × ℚ)) (e : String) :
    ((∃ v, (e, v) ∈ scores) → ∃ r ∈ create_gradebook students scores, r.email = e) ∧
    ((∃ b, (e, b) ∈ students) → ∃ r ∈ create_gradebook students scores, r.email = e) ∧
    (∀ r ∈ create_gradebook students scores, r.score.isSome) ∧
    (∀ r ∈ create_gradebook students scores,
      lookupKey scores r.email = none → r.score = some 0) := by
  refine ⟨?_, ?_, ?_, ?_⟩
  · rintro ⟨v, hv⟩
    cases hstu : lookupKey students e with
    | some b =>
        unfold lookupKey at hstu
        rcases Option.map_eq_some'.mp hstu with ⟨s, hfind, _⟩
        have hsmem := List.mem_of_find?_eq_some hfind
        have hse : s.1 = e := by simpa using List.find?_some hfind
        refine ⟨⟨s.1, some s.2, some ((lookupKey scores s.1).getD 0)⟩, ?_, hse⟩
        unfold create_gradebook fillScoreZero
        refine List.mem_map.mpr ⟨⟨s.1, some s.2, lookupKey scores s.1⟩, ?_, rfl⟩
        unfold outerMerge
        exact List.mem_append_left _ (List.mem_map.mpr ⟨s, hsmem, rfl⟩)
    | none =>
        refine ⟨⟨e, none, some v⟩, ?_, rfl⟩
        unfold create_gradebook fillScoreZero
        refine List.mem_map.mpr ⟨⟨e, none, some v⟩, ?_, rfl⟩
        unfold outerMerge
        refine List.mem_append_right _ (List.mem_map.mpr ⟨(e, v), ?_, rfl⟩)
        exact List.mem_filter.mpr ⟨hv, by simp [hstu]⟩
  · rintro ⟨b, hb⟩
    refine ⟨⟨e, some b, some ((lookupKey scores e).getD 0)⟩, ?_, rfl⟩
    unfold create_gradebook fillScoreZero
    refine List.mem_map.mpr ⟨⟨e, some b, lookupKey scores e⟩, ?_, rfl⟩
    unfold outerMerge
    exact List.mem_append_left _ (List.mem_map.mpr ⟨(e, b), hb, rfl⟩)
  · intro r hr
    unfold create_gradebook fillScoreZero at hr
    rcases List.mem_map.mp hr with ⟨r0, _, hr0⟩
    rw [← hr0]
    simp
  · intro r hr hnone
    unfold create_gradebook fillScoreZero at hr
    rcases List.mem_map.mp hr with ⟨r0, hr0mem, hr0⟩
    unfold outerMerge at hr0mem
    rcases List.mem_append.mp hr0mem with hleft | hright
    · rcases List.mem_map.mp hleft with ⟨s, _, hs⟩
      rw [← hr0, ← hs]
      rw [← hr0, ← hs] at hnone
      simp only at hnone ⊢
      rw [hnone]
      rfl
    · exfalso
      rcases List.mem_map.mp hright with ⟨sc, hscmem, hsc⟩
      have hscores : sc ∈ scores := (List.mem_filter.mp hscmem).1
      have : (lookupKey scores sc.1).isSome := by
        have : (sc.1, sc.2) ∈ scores := by simpa using hscores
        exact lookupKey_isSome_of_mem this
      rw [← hr0, ← hsc] at hnone
      simp only at hnone
      rw [hnone] at this
      simp at this

/-- Witness for C8 on the 3-row roster / 2-row score-table fixture: the
scored email d is absent from the roster yet appears in the merge. -/
theorem C8_roster_outer_join_witness :
    (∃ v, ("d@ucsd.edu", v) ∈ gsScores1) ∧
    (∃ r ∈ create_gradebook gsRoster1 gsScores1, r.email = "d@ucsd.edu") := by
  have hv : ∃ v, ("d@ucsd.edu", v) ∈ gsScores1 := ⟨70, by simp [gsScores1]⟩
  exact ⟨hv, (C8_roster_outer_join gsRoster1 gsScores1 "d@ucsd.edu").1 hv⟩

/-- C9 counterexample: for the failed progress handle (workflow state failed
at every observation, completion never 100) the polling loop of
`Gradebook.track_progress` does not terminate: it has no exit on the failed
branch, so it never returns with the failure surfaced — it loops printing
the failure message forever. -/
theorem C9_counterexample :
    ¬ trackTerminates failedProgress ∧ trackStep failedProgress 0 = some true := by
  constructor
  · rintro ⟨fuel, hf⟩
    rw [trackLoop_stuck failedProgress (fun i => by norm_num [failedProgress]) fuel 0]
      at hf
    simp at hf
  · rfl

/-- C9 amended: when the workflow state is failed at every observation and
the completion never reaches 100, every loop iteration takes the reporting
branch (the failure message is printed, so the failure is surfaced and the
job is never auto-retried), but the loop never returns: `track_progress`
loops indefinitely instead of terminating. -/
theorem C9_failed_never_returns (p : Progress)
    (hc : ∀ i, p.completion i ≠ 100) (hs : ∀ i, p.workflow_state i = "failed") :
    (∀ i, trackStep p i = some true) ∧
    (∀ fuel, trackLoop p 0 fuel = none) ∧
    ¬ trackTerminates p := by
  refine ⟨?_, fun fuel => trackLoop_stuck p hc fuel 0, ?_⟩
  · intro i
    unfold trackStep
    rw [if_neg (hc i), if_pos (hs i)]
  · rintro ⟨fuel, hf⟩
    rw [trackLoop_stuck p hc fuel 0] at hf
    simp at hf

/-- Witness for C9 amended at the failed progress handle. -/
theorem C9_failed_never_returns_witness :
    (failedProgress.completion 0 ≠ 100 ∧
     failedProgress.workflow_state 0 = "failed") ∧
    trackStep failedProgress 5 = some true ∧
    trackLoop failedProgress 0 3 = none := by
  have hc : ∀ i : ℕ, failedProgress.completion i ≠ 100 := fun i => by
    norm_num [failedProgress]
  have hs : ∀ i : ℕ, failedProgress.workflow_state i = "failed" := fun i => rfl
  have h := C9_failed_never_returns failedProgress hc hs
  exact ⟨⟨hc 0, hs 0⟩, h.1 5, h.2.1 3⟩

